import Mathlib

/-!
Verification of the drive_gpt_app program (src/drive_gpt_app.py).

The program downloads files from a cloud drive, extracts their content by
declared media type (function get_file_content), assembles a multimodal
prompt list in the button handler, and sends it to a hosted model
(function get_gemini_response).

The embedding below models bytes as lists of natural numbers, external
library behaviour (the drive fetch, the PDF, word-processing and
presentation parsers, and the hosted model call) as explicit function
parameters, and translates the dispatch and loop logic of the source
directly.
-/

namespace DriveApp

/-- A byte string, each element a byte value. -/
abbrev Bytes := List Nat

/-- Does a byte lie in the inclusive range lo..hi. -/
def inRange (lo hi b : Nat) : Bool := decide (lo ≤ b) && decide (b ≤ hi)

/-- Classification of a UTF-8 lead byte: the initial accumulator value
taken from the low bits of the lead byte, and the admissible ranges for
each required continuation byte.  The ranges follow the W3C/Unicode
well-formed byte sequence table, which is what the CPython UTF-8 decoder
implements: overlong encodings, surrogate code points and values above
0x10FFFF are rejected at the earliest byte. -/
def leadInfo (b : Nat) : Option (Nat × List (Nat × Nat)) :=
  if inRange 0xC2 0xDF b then some (b - 0xC0, [(0x80, 0xBF)])
  else if b = 0xE0 then some (0, [(0xA0, 0xBF), (0x80, 0xBF)])
  else if inRange 0xE1 0xEC b then some (b - 0xE0, [(0x80, 0xBF), (0x80, 0xBF)])
  else if b = 0xED then some (13, [(0x80, 0x9F), (0x80, 0xBF)])
  else if inRange 0xEE 0xEF b then some (b - 0xE0, [(0x80, 0xBF), (0x80, 0xBF)])
  else if b = 0xF0 then some (0, [(0x90, 0xBF), (0x80, 0xBF), (0x80, 0xBF)])
  else if inRange 0xF1 0xF3 b then some (b - 0xF0, [(0x80, 0xBF), (0x80, 0xBF), (0x80, 0xBF)])
  else if b = 0xF4 then some (4, [(0x80, 0x8F), (0x80, 0xBF), (0x80, 0xBF)])
  else none

/-- Try to read the continuation bytes of a multi-byte sequence.
Returns the continuation bytes when all the required ranges are matched,
or none on failure; the second component is how many bytes were
consumed (the length of the maximal valid subpart, used by the CPython
error handlers to decide how many bytes one decoding error spans). -/
def takeConts : List (Nat × Nat) → Bytes → Option Bytes × Nat
  | [], _ => (some [], 0)
  | _ :: _, [] => (none, 0)
  | (lo, hi) :: rs, b :: bs =>
    if inRange lo hi b then
      match takeConts rs bs with
      | (some cs, n) => (some (b :: cs), n + 1)
      | (none, n) => (none, n + 1)
    else (none, 0)

/-- Accumulate the continuation bytes into a code point: each
continuation byte contributes its low six bits. -/
def accumCode (init : Nat) (cs : Bytes) : Nat :=
  cs.foldl (fun v c => v * 64 + (c - 0x80)) init

/-- Core of the CPython UTF-8 decoder over a byte list.  Valid sequences
become the decoded character; an invalid maximal subpart is either
skipped (errors ignore) or replaced by U+FFFD (errors replace),
according to the flag.  The first argument is recursion fuel: every
step consumes at least one byte, so fuel equal to the byte count (as
supplied by the two wrappers below) is always enough, and the
fuel-exhausted branch is unreachable from them. -/
def utf8DecodeCore (replaceErrors : Bool) : Nat → Bytes → List Char
  | _, [] => []
  | 0, _ :: _ => []
  | fuel + 1, b :: bs =>
    if b < 0x80 then
      Char.ofNat b :: utf8DecodeCore replaceErrors fuel bs
    else
      match leadInfo b with
      | none =>
        (if replaceErrors then [Char.ofNat 0xFFFD] else []) ++ utf8DecodeCore replaceErrors fuel bs
      | some (init, ranges) =>
        match takeConts ranges bs with
        | (some cs, n) =>
          Char.ofNat (accumCode init cs) :: utf8DecodeCore replaceErrors fuel (bs.drop n)
        | (none, n) =>
          (if replaceErrors then [Char.ofNat 0xFFFD] else []) ++ utf8DecodeCore replaceErrors fuel (bs.drop n)

/-- Model of the Python expression file_bytes.decode("utf-8",
errors="ignore") on line 32 of the source: UTF-8 decoding where
undecodable byte subparts are silently dropped. -/
def utf8DecodeIgnore (bytes : Bytes) : String :=
  String.mk (utf8DecodeCore false bytes.length bytes)

/-- Modelled from the spec: the decoding the spec attributes to the
text branch, namely UTF-8 decoding "replacing undecodable sequences"
(Python errors="replace"), which inserts U+FFFD for each undecodable
maximal subpart.  The source does not contain this behaviour; this
definition exists only to compare the spec wording against the source
embedding utf8DecodeIgnore. -/
def utf8DecodeReplace (bytes : Bytes) : String :=
  String.mk (utf8DecodeCore true bytes.length bytes)

/-- Model of the Python method s.startswith(p): p is a prefix of s,
compared character by character. -/
def startswith (s p : String) : Bool :=
  p.data.isPrefixOf s.data

/-- A file record as returned by the drive listing on line 123 of the
source: fields id, name, mimeType.  The Python code reads mimeType with
file_info.get, defaulting to the empty string; the total field models
that (a missing key is the empty string). -/
structure FileRecord where
  id : String
  name : String
  mimeType : String
  deriving DecidableEq, Repr

/-- The tagged result of get_file_content: the Python function returns
one of the pairs (text, string), (image, bytes) or
(unsupported, reason string). -/
inductive ExtractedContent where
  | text (s : String)
  | image (b : Bytes)
  | unsupported (reason : String)
  deriving DecidableEq, Repr

/-- An element of the prompt_parts list built by the button handler.
The handler only ever appends strings (constructor str, lines 148 and
158 of the source) and PIL image objects (constructor image, lines
150-151: Image.open over a BytesIO of the fetched bytes, modelled as a
tagged wrapper of those bytes).  The constructor bytes represents a raw
byte string appended unopened; it is expressible so that the claim that
raw bytes are appended can be stated, but the embedded handler never
produces it. -/
inductive PromptPart where
  | str (s : String)
  | image (b : Bytes)
  | bytes (b : Bytes)
  deriving DecidableEq, Repr

/-- The behaviour of the external libraries used by get_file_content.
Each field models one call that can raise: an error value carries the
string rendering of the raised exception.
fetch models drive_service.files().get_media(fileId).execute();
fitzOpen models fitz.open plus page.get_text() over every page, giving
the list of page texts in page order;
docxOpen models docx.Document, giving the paragraph texts in document
order;
pptxOpen models pptx.Presentation, giving for each slide in order the
list of its shapes in order, where a shape is some t when it has a
text attribute with value t and none when it has no text attribute. -/
structure Behaviour where
  fetch : String → Except String Bytes
  fitzOpen : Bytes → Except String (List String)
  docxOpen : Bytes → Except String (List String)
  pptxOpen : Bytes → Except String (List (List (Option String)))

/-- Embedding of get_file_content (lines 19-67 of the source): fetch
the raw bytes, dispatch on the declared media type, and wrap any
exception from fetching or parsing into the unsupported variant with
the message f-string of line 67. -/
def get_file_content (env : Behaviour) (file_info : FileRecord) : ExtractedContent :=
  let file_id := file_info.id
  let mime_type := file_info.mimeType
  match env.fetch file_id with
  | .error e => .unsupported ("Error reading file: " ++ e)
  | .ok file_bytes =>
    if startswith mime_type "text/" then
      .text (utf8DecodeIgnore file_bytes)
    else if mime_type = "application/pdf" then
      match env.fitzOpen file_bytes with
      | .error e => .unsupported ("Error reading file: " ++ e)
      | .ok pdf_doc => .text (pdf_doc.foldl (fun text page => text ++ page) "")
    else if mime_type = "application/vnd.openxmlformats-officedocument.wordprocessingml.document"
        ∨ mime_type = "application/msword" then
      match env.docxOpen file_bytes with
      | .error e => .unsupported ("Error reading file: " ++ e)
      | .ok paragraphs => .text (String.intercalate "\n" paragraphs)
    else if mime_type = "application/vnd.openxmlformats-officedocument.presentationml.presentation" then
      match env.pptxOpen file_bytes with
      | .error e => .unsupported ("Error reading file: " ++ e)
      | .ok slides =>
        .text (slides.foldl (fun text slide =>
          slide.foldl (fun text shape =>
            match shape with
            | some t => text ++ t ++ "\n"
            | none => text) text) "")
    else if startswith mime_type "image/" then
      .image file_bytes
    else
      .unsupported ("Unsupported MIME type: " ++ mime_type)

/-- Embedding of get_gemini_response (lines 70-81 of the source).  The
whole body, including genai.configure and the generate_content call, is
inside one try block; the parameter call models that hosted call as a
function of the api key and the prompt parts, returning the reply text
or the string rendering of a raised exception. -/
def get_gemini_response (call : String → List PromptPart → Except String String)
    (api_key : String) (prompt_parts : List PromptPart) : String :=
  match call api_key prompt_parts with
  | .ok t => t
  | .error e => "ERROR: Could not generate response from Gemini. Details: " ++ e

/-- One iteration of the file loop in the button handler (lines
141-153): the prompt parts the file contributes and the warnings it
emits.  A text extraction contributes the f-string of line 148, an
image extraction contributes the opened image of lines 150-151, and an
unsupported extraction contributes nothing and emits the warning of
line 153. -/
def process_one (env : Behaviour) (f : FileRecord) : List PromptPart × List String :=
  match get_file_content env f with
  | .text content => ([.str ("\n--- DOCUMENT: " ++ f.name ++ " ---\n" ++ content)], [])
  | .image b => ([.image b], [])
  | .unsupported reason =>
    ([], ["Skipping unsupported file: " ++ f.name ++ " (" ++ reason ++ ")"])

/-- The file loop of the button handler, processing the selected files
one at a time in order and accumulating prompt parts and warnings. -/
def process_files (env : Behaviour) : List FileRecord → List PromptPart × List String
  | [] => ([], [])
  | f :: rest =>
    let one := process_one env f
    let restOut := process_files env rest
    (one.1 ++ restOut.1, one.2 ++ restOut.2)

/-- The observable outcome of one button press: the final prompt_parts
list, the warnings shown, and the response text displayed by st.write
(none when the handler never called the model). -/
structure HandlerOutput where
  prompt_parts : List PromptPart
  warnings : List String
  response_displayed : Option String
  deriving DecidableEq, Repr

/-- Embedding of the button handler (lines 139-165 of the source): run
the file loop, and only when the resulting prompt_parts list is
nonempty insert the user prompt at position 0, call
get_gemini_response and display its return value. -/
def run_handler (env : Behaviour) (call : String → List PromptPart → Except String String)
    (api_key user_prompt : String) (files : List FileRecord) : HandlerOutput :=
  let looped := process_files env files
  if looped.1 = [] then
    { prompt_parts := looped.1, warnings := looped.2, response_displayed := none }
  else
    let pp := PromptPart.str user_prompt :: looped.1
    { prompt_parts := pp, warnings := looped.2,
      response_displayed := some (get_gemini_response call api_key pp) }

/-- Python dict assignment d[k] = v restricted to the reachable states
of the file_options comprehension (string keys, distinct by
construction): an existing key keeps its position and gets the new
value, a new key is appended. -/
def dictInsert : List (String × FileRecord) → String → FileRecord → List (String × FileRecord)
  | [], k, v => [(k, v)]
  | p :: rest, k, v =>
    if p.1 = k then (k, v) :: rest else p :: dictInsert rest k v

/-- Embedding of the comprehension on line 129 of the source,
file_options = a dict keyed by item name over the listed items,
built by inserting the items in listing order. -/
def file_options (items : List FileRecord) : List (String × FileRecord) :=
  items.foldl (fun m item => dictInsert m item.name item) []

/-- Lookup in the name-keyed map, as file_options[file_display] on
line 142 of the source. -/
def lookupName : List (String × FileRecord) → String → Option FileRecord
  | [], _ => none
  | p :: rest, n => if p.1 = n then some p.2 else lookupName rest n

/-- The last record in a listing carrying a given name, if any. -/
def lastWithName : List FileRecord → String → Option FileRecord
  | [], _ => none
  | it :: rest, n =>
    match lastWithName rest n with
    | some r => some r
    | none => if it.name = n then some it else none

/-- The media types the dispatch of get_file_content recognizes: the
two startswith classes and the four exact document types of its
branches.  Any other media type falls through to the final else. -/
def recognizedMime (m : String) : Bool :=
  startswith m "text/"
  || decide (m = "application/pdf")
  || decide (m = "application/vnd.openxmlformats-officedocument.wordprocessingml.document")
  || decide (m = "application/msword")
  || decide (m = "application/vnd.openxmlformats-officedocument.presentationml.presentation")
  || startswith m "image/"

/-- What one shape contributes to the presentation text: its text
followed by a line break when it has a text attribute, nothing
otherwise. -/
def shapeLine : Option String → String
  | some t => t ++ "\n"
  | none => ""

/-- A concrete behaviour for witnesses: four file ids resolve to fixed
byte strings, every other id fails to fetch with message 404, and the
three parsers return fixed small documents. -/
def sampleEnv : Behaviour :=
  { fetch := fun i =>
      if i = "1" then .ok [65]
      else if i = "2" then .ok [66]
      else if i = "255" then .ok [255]
      else if i = "img" then .ok [1, 2, 3]
      else .error "404"
    fitzOpen := fun _ => .ok ["page one. ", "page two."]
    docxOpen := fun _ => .ok ["para one", "para two"]
    pptxOpen := fun _ => .ok [[some "x", none], [some "y"]] }

/-- A plain text file whose byte string decodes to A. -/
def fileA : FileRecord := ⟨"1", "a.txt", "text/plain"⟩

/-- A plain text file whose byte string decodes to B. -/
def fileB : FileRecord := ⟨"2", "b.txt", "text/plain"⟩

/-- A text file whose single byte 0xFF is not decodable UTF-8. -/
def fileFF : FileRecord := ⟨"255", "weird.txt", "text/plain"⟩

/-- An image file. -/
def fileImg : FileRecord := ⟨"img", "pic.png", "image/png"⟩

/-- A PDF file. -/
def filePdf : FileRecord := ⟨"1", "doc.pdf", "application/pdf"⟩

/-- A presentation file. -/
def filePptx : FileRecord :=
  ⟨"1", "slides.pptx", "application/vnd.openxmlformats-officedocument.presentationml.presentation"⟩

/-- A file of a media type no dispatch branch recognizes. -/
def fileZip : FileRecord := ⟨"1", "arc.zip", "application/zip"⟩

/-- A file whose id the sample behaviour fails to fetch. -/
def fileMissing : FileRecord := ⟨"nope", "gone.txt", "text/plain"⟩

/-- A model call behaviour that always succeeds with a fixed reply. -/
def okCall : String → List PromptPart → Except String String := fun _ _ => .ok "the reply"

/-- A model call behaviour that always raises, rendered as a quota
message. -/
def failCall : String → List PromptPart → Except String String :=
  fun _ _ => .error "quota exceeded"

/-! Helper lemmas about string concatenation folds. -/

theorem foldl_append_eq_join (l : List String) (init : String) :
    l.foldl (fun text s => text ++ s) init = init ++ String.join l := by
  induction l generalizing init with
  | nil =>
    show init = init ++ String.join []
    rw [show String.join [] = "" from rfl, String.append_empty]
  | cons s rest ih =>
    show rest.foldl _ (init ++ s) = init ++ String.join (s :: rest)
    rw [ih]
    have hj : String.join (s :: rest) = s ++ String.join rest := by
      show rest.foldl _ ("" ++ s) = _
      rw [ih, String.empty_append]
    rw [hj, String.append_assoc]

theorem join_cons (s : String) (l : List String) :
    String.join (s :: l) = s ++ String.join l := by
  show l.foldl _ ("" ++ s) = _
  rw [foldl_append_eq_join, String.empty_append]

theorem join_append (l1 l2 : List String) :
    String.join (l1 ++ l2) = String.join l1 ++ String.join l2 := by
  induction l1 with
  | nil =>
    rw [List.nil_append, show String.join [] = "" from rfl, String.empty_append]
  | cons s rest ih =>
    rw [List.cons_append, join_cons, join_cons, ih, String.append_assoc]

/-- Claim C2, corrected statement.  For a media type starting with
text/ and a successful fetch, get_file_content returns the Text
variant holding the UTF-8 decoding of the fetched bytes with
undecodable subparts dropped (Python errors ignore), not replaced. -/
theorem claim2_amended (env : Behaviour) (f : FileRecord) (bs : Bytes)
    (hm : startswith f.mimeType "text/" = true)
    (hf : env.fetch f.id = .ok bs) :
    get_file_content env f = .text (utf8DecodeIgnore bs) := by
  simp [get_file_content, hf, hm]

/-- Claim C2, counterexample to the claim as stated: for the text file
whose fetched byte string is the single undecodable byte 0xFF, the
extraction result is not the Text variant of the replacing (lossy,
U+FFFD inserting) decoding the claim describes; the code drops the
byte instead. -/
theorem claim2_counterexample :
    sampleEnv.fetch fileFF.id = Except.ok [255] ∧
    get_file_content sampleEnv fileFF ≠ .text (utf8DecodeReplace [255]) :=
  ⟨rfl, by decide⟩

/-- Claim C2, witness for the corrected statement at a concrete
input. -/
theorem claim2_witness :
    startswith fileA.mimeType "text/" = true ∧
    sampleEnv.fetch fileA.id = Except.ok [65] ∧
    get_file_content sampleEnv fileA = .text (utf8DecodeIgnore [65]) :=
  ⟨by decide, rfl, claim2_amended sampleEnv fileA [65] (by decide) rfl⟩

/-- Claim C7.  For a media type equal to the PDF document type, a
successful fetch and a successful parse into the list of page texts,
get_file_content returns the Text variant holding the concatenation of
the page texts in page order. -/
theorem claim7_pdf_concat_pages (env : Behaviour) (f : FileRecord) (bs : Bytes)
    (pages : List String)
    (hm : f.mimeType = "application/pdf")
    (hf : env.fetch f.id = .ok bs)
    (hp : env.fitzOpen bs = .ok pages) :
    get_file_content env f = .text (String.join pages) := by
  have ht : startswith "application/pdf" "text/" = false := by decide
  simp [get_file_content, hf, hm, hp, ht, foldl_append_eq_join, String.empty_append]

/-- Claim C7, witness at a concrete two-page document. -/
theorem claim7_witness :
    filePdf.mimeType = "application/pdf" ∧
    sampleEnv.fetch filePdf.id = Except.ok [65] ∧
    sampleEnv.fitzOpen [65] = Except.ok ["page one. ", "page two."] ∧
    get_file_content sampleEnv filePdf = .text (String.join ["page one. ", "page two."]) :=
  ⟨rfl, rfl, rfl, claim7_pdf_concat_pages sampleEnv filePdf [65] ["page one. ", "page two."] rfl rfl rfl⟩

/-! Helper lemmas for the presentation branch: the nested accumulation
loop of the source equals the join of the per-shape contributions. -/

theorem pptx_slide_fold (slide : List (Option String)) (init : String) :
    slide.foldl (fun text shape =>
        match shape with
        | some t => text ++ t ++ "\n"
        | none => text) init
      = init ++ String.join (slide.map shapeLine) := by
  induction slide generalizing init with
  | nil =>
    show init = init ++ String.join []
    rw [show String.join [] = "" from rfl, String.append_empty]
  | cons sh rest ih =>
    cases sh with
    | some t =>
      show rest.foldl _ (init ++ t ++ "\n") = _
      rw [ih, List.map_cons, join_cons,
        show shapeLine (some t) = t ++ "\n" from rfl,
        String.append_assoc, String.append_assoc, String.append_assoc]
    | none =>
      show rest.foldl _ init = _
      rw [ih, List.map_cons, join_cons, show shapeLine none = "" from rfl,
        String.empty_append]

theorem pptx_slides_fold (slides : List (List (Option String))) (init : String) :
    slides.foldl (fun text slide =>
        slide.foldl (fun text shape =>
          match shape with
          | some t => text ++ t ++ "\n"
          | none => text) text) init
      = init ++ String.join (slides.map (fun slide => String.join (slide.map shapeLine))) := by
  induction slides generalizing init with
  | nil =>
    show init = init ++ String.join []
    rw [show String.join [] = "" from rfl, String.append_empty]
  | cons s rest ih =>
    show rest.foldl _ (s.foldl _ init) = _
    rw [pptx_slide_fold, ih, List.map_cons, join_cons, String.append_assoc]

theorem join_shapeLine_slide (s : List (Option String)) :
    String.join (s.map shapeLine)
      = String.join ((s.filterMap id).map (fun t => t ++ "\n")) := by
  induction s with
  | nil => rfl
  | cons sh rest ih =>
    cases sh with
    | some t =>
      rw [List.map_cons, join_cons,
        show List.filterMap id (some t :: rest) = t :: List.filterMap id rest by simp,
        List.map_cons, join_cons, ih]
      rfl
    | none =>
      rw [List.map_cons, join_cons, show shapeLine none = "" from rfl,
        String.empty_append,
        show List.filterMap id (none :: rest) = List.filterMap id rest by simp, ih]

theorem join_shapeLine_flatten (slides : List (List (Option String))) :
    String.join (slides.map (fun slide => String.join (slide.map shapeLine)))
      = String.join ((slides.flatten.filterMap id).map (fun t => t ++ "\n")) := by
  induction slides with
  | nil => rfl
  | cons s rest ih =>
    rw [List.map_cons, join_cons, List.flatten_cons, List.filterMap_append,
      List.map_append, join_append, ih, join_shapeLine_slide]

/-- Claim C8.  For a media type equal to the OOXML presentation type,
a successful fetch and a successful parse into slides of shapes,
get_file_content returns the Text variant holding the concatenation,
in slide order then shape order, of every present shape text followed
by a line break. -/
theorem claim8_pptx_concat_shapes (env : Behaviour) (f : FileRecord) (bs : Bytes)
    (slides : List (List (Option String)))
    (hm : f.mimeType = "application/vnd.openxmlformats-officedocument.presentationml.presentation")
    (hf : env.fetch f.id = .ok bs)
    (hp : env.pptxOpen bs = .ok slides) :
    get_file_content env f
      = .text (String.join ((slides.flatten.filterMap id).map (fun t => t ++ "\n"))) := by
  have ht : startswith
      "application/vnd.openxmlformats-officedocument.presentationml.presentation" "text/"
        = false := by decide
  have h1 : "application/vnd.openxmlformats-officedocument.presentationml.presentation"
      ≠ "application/pdf" := by decide
  have h2 : "application/vnd.openxmlformats-officedocument.presentationml.presentation"
      ≠ "application/vnd.openxmlformats-officedocument.wordprocessingml.document" := by decide
  have h3 : "application/vnd.openxmlformats-officedocument.presentationml.presentation"
      ≠ "application/msword" := by decide
  simp only [get_file_content, hf, hm]
  rw [if_neg (by rw [ht]; exact Bool.false_ne_true), if_neg h1,
    if_neg (fun h => h.elim h2 h3), if_pos trivial]
  simp only [hp]
  rw [pptx_slides_fold, String.empty_append, join_shapeLine_flatten]

/-- Claim C8, witness at a concrete two-slide document with one shape
lacking a text attribute. -/
theorem claim8_witness :
    filePptx.mimeType
      = "application/vnd.openxmlformats-officedocument.presentationml.presentation" ∧
    sampleEnv.fetch filePptx.id = Except.ok [65] ∧
    sampleEnv.pptxOpen [65] = Except.ok [[some "x", none], [some "y"]] ∧
    get_file_content sampleEnv filePptx
      = .text (String.join
          (([[some "x", none], [some "y"]].flatten.filterMap id).map (fun t => t ++ "\n"))) :=
  ⟨rfl, rfl, rfl,
    claim8_pptx_concat_shapes sampleEnv filePptx [65] [[some "x", none], [some "y"]] rfl rfl rfl⟩

/-- Claim C3.  The embedded get_file_content is a total function, so it
never raises by construction; this theorem pins down its value on every
failure path: a fetch exception, an unrecognized media type, and a
parser exception in each of the three document branches all yield the
unsupported variant with the human-readable message the source builds
on lines 64 and 67. -/
theorem claim3_unsupported_on_failure (env : Behaviour) (f : FileRecord) :
    (∀ e, env.fetch f.id = .error e →
      get_file_content env f = .unsupported ("Error reading file: " ++ e)) ∧
    (∀ bs, env.fetch f.id = .ok bs → recognizedMime f.mimeType = false →
      get_file_content env f = .unsupported ("Unsupported MIME type: " ++ f.mimeType)) ∧
    (∀ bs e, env.fetch f.id = .ok bs → f.mimeType = "application/pdf" →
      env.fitzOpen bs = .error e →
      get_file_content env f = .unsupported ("Error reading file: " ++ e)) ∧
    (∀ bs e, env.fetch f.id = .ok bs →
      (f.mimeType = "application/vnd.openxmlformats-officedocument.wordprocessingml.document" ∨
        f.mimeType = "application/msword") →
      env.docxOpen bs = .error e →
      get_file_content env f = .unsupported ("Error reading file: " ++ e)) ∧
    (∀ bs e, env.fetch f.id = .ok bs →
      f.mimeType = "application/vnd.openxmlformats-officedocument.presentationml.presentation" →
      env.pptxOpen bs = .error e →
      get_file_content env f = .unsupported ("Error reading file: " ++ e)) := by
  refine ⟨?_, ?_, ?_, ?_, ?_⟩
  · intro e hf
    simp [get_file_content, hf]
  · intro bs hf hm
    simp only [recognizedMime, Bool.or_eq_false_iff, decide_eq_false_iff_not] at hm
    obtain ⟨⟨⟨⟨⟨h1, h2⟩, h3⟩, h4⟩, h5⟩, h6⟩ := hm
    simp [get_file_content, hf, h1, h2, h3, h4, h5, h6]
  · intro bs e hf hm hp
    have ht : startswith "application/pdf" "text/" = false := by decide
    simp [get_file_content, hf, hm, ht, hp]
  · intro bs e hf hm hd
    rcases hm with hm | hm
    · have ht : startswith
          "application/vnd.openxmlformats-officedocument.wordprocessingml.document" "text/"
            = false := by decide
      have h1 : "application/vnd.openxmlformats-officedocument.wordprocessingml.document"
          ≠ "application/pdf" := by decide
      simp [get_file_content, hf, hm, ht, h1, hd]
    · have ht : startswith "application/msword" "text/" = false := by decide
      have h1 : "application/msword" ≠ "application/pdf" := by decide
      simp [get_file_content, hf, hm, ht, h1, hd]
  · intro bs e hf hm hp
    have ht : startswith
        "application/vnd.openxmlformats-officedocument.presentationml.presentation" "text/"
          = false := by decide
    have h1 : "application/vnd.openxmlformats-officedocument.presentationml.presentation"
        ≠ "application/pdf" := by decide
    have h2 : "application/vnd.openxmlformats-officedocument.presentationml.presentation"
        ≠ "application/vnd.openxmlformats-officedocument.wordprocessingml.document" := by decide
    have h3 : "application/vnd.openxmlformats-officedocument.presentationml.presentation"
        ≠ "application/msword" := by decide
    simp [get_file_content, hf, hm, ht, h1, h2, h3, hp]

/-- Claim C3, witness: a failing fetch and an unrecognized media type
both produce the unsupported variant at concrete inputs. -/
theorem claim3_witness :
    sampleEnv.fetch fileMissing.id = Except.error "404" ∧
    get_file_content sampleEnv fileMissing = .unsupported ("Error reading file: " ++ "404") ∧
    recognizedMime fileZip.mimeType = false ∧
    get_file_content sampleEnv fileZip
      = .unsupported ("Unsupported MIME type: " ++ fileZip.mimeType) :=
  ⟨rfl,
    (claim3_unsupported_on_failure sampleEnv fileMissing).1 "404" rfl,
    by decide,
    (claim3_unsupported_on_failure sampleEnv fileZip).2.1 [65] rfl (by decide)⟩

/-- Claim C1, corrected statement.  With user prompt Summarize and two
selected files whose extractions are the Text variants A and B, the
assembled prompt_parts list puts the user prompt first, followed by
one string per file in selection order; each such string is not the
bare extracted text but the extracted text wrapped in the document
header of line 148, naming the file. -/
theorem claim1_amended (env : Behaviour)
    (call : String → List PromptPart → Except String String)
    (api_key : String) (f1 f2 : FileRecord)
    (h1 : get_file_content env f1 = .text "A")
    (h2 : get_file_content env f2 = .text "B") :
    (run_handler env call api_key "Summarize" [f1, f2]).prompt_parts =
      [PromptPart.str "Summarize",
       PromptPart.str ("\n--- DOCUMENT: " ++ f1.name ++ " ---\n" ++ "A"),
       PromptPart.str ("\n--- DOCUMENT: " ++ f2.name ++ " ---\n" ++ "B")] := by
  simp [run_handler, process_files, process_one, h1, h2]

/-- Claim C1, counterexample to the claim as stated: two text files
extracting to A and B with user prompt Summarize do not produce the
prompt_parts list [Summarize, A, B]; the file contributions carry the
document header. -/
theorem claim1_counterexample :
    get_file_content sampleEnv fileA = .text "A" ∧
    get_file_content sampleEnv fileB = .text "B" ∧
    (run_handler sampleEnv okCall "key" "Summarize" [fileA, fileB]).prompt_parts ≠
      [PromptPart.str "Summarize", PromptPart.str "A", PromptPart.str "B"] :=
  ⟨by decide, by decide, by decide⟩

/-- Claim C1, witness for the corrected statement at concrete
inputs. -/
theorem claim1_witness :
    get_file_content sampleEnv fileA = .text "A" ∧
    get_file_content sampleEnv fileB = .text "B" ∧
    (run_handler sampleEnv okCall "key" "Summarize" [fileA, fileB]).prompt_parts =
      [PromptPart.str "Summarize",
       PromptPart.str ("\n--- DOCUMENT: " ++ fileA.name ++ " ---\n" ++ "A"),
       PromptPart.str ("\n--- DOCUMENT: " ++ fileB.name ++ " ---\n" ++ "B")] :=
  ⟨by decide, by decide,
    claim1_amended sampleEnv okCall "key" fileA fileB (by decide) (by decide)⟩

/-- Claim C4, corrected statement.  A file extracting to the Image
variant contributes the PIL image object opened from its raw bytes
(lines 150-151), not the raw bytes themselves; a file extracting to
the Text variant contributes one string, the extracted text wrapped in
the document header naming the file (line 148). -/
theorem claim4_amended (env : Behaviour) (f : FileRecord) :
    (∀ b, get_file_content env f = .image b →
      process_one env f = ([PromptPart.image b], [])) ∧
    (∀ s, get_file_content env f = .text s →
      process_one env f = ([PromptPart.str ("\n--- DOCUMENT: " ++ f.name ++ " ---\n" ++ s)], [])) := by
  constructor
  · intro b h
    simp [process_one, h]
  · intro s h
    simp [process_one, h]

/-- Claim C4, counterexample to the claim as stated: the item appended
for an image file is not the raw byte string kept uninterpreted, and
the item appended for a text file is not the bare extracted text. -/
theorem claim4_counterexample :
    get_file_content sampleEnv fileImg = .image [1, 2, 3] ∧
    (process_one sampleEnv fileImg).1 ≠ [PromptPart.bytes [1, 2, 3]] ∧
    get_file_content sampleEnv fileA = .text "A" ∧
    (process_one sampleEnv fileA).1 ≠ [PromptPart.str "A"] :=
  ⟨by decide, by decide, by decide, by decide⟩

/-- Claim C4, witness for the corrected statement at concrete
inputs. -/
theorem claim4_witness :
    get_file_content sampleEnv fileImg = .image [1, 2, 3] ∧
    process_one sampleEnv fileImg = ([PromptPart.image [1, 2, 3]], []) :=
  ⟨by decide,
    (claim4_amended sampleEnv fileImg).1 [1, 2, 3] (by decide)⟩

/-- Claim C5.  The embedded get_gemini_response is a total function
into String, so it never raises by construction.  On any raising model
call it returns the error string of line 81, which carries the fixed
prefix ERROR: that a successful reply is not given; on a successful
call it returns the reply text unchanged; and whenever the handler has
a nonempty parts list it displays the returned string as the response,
whether or not the call failed. -/
theorem claim5_model_client (call : String → List PromptPart → Except String String)
    (api_key : String) (pp : List PromptPart) (env : Behaviour)
    (user_prompt : String) (files : List FileRecord) :
    (∀ e, call api_key pp = .error e →
      get_gemini_response call api_key pp =
        "ERROR: Could not generate response from Gemini. Details: " ++ e ∧
      ∃ tail, get_gemini_response call api_key pp = "ERROR:" ++ tail) ∧
    (∀ t, call api_key pp = .ok t → get_gemini_response call api_key pp = t) ∧
    ((process_files env files).1 ≠ [] →
      (run_handler env call api_key user_prompt files).response_displayed =
        some (get_gemini_response call api_key
          (PromptPart.str user_prompt :: (process_files env files).1))) := by
  refine ⟨?_, ?_, ?_⟩
  · intro e he
    have hv : get_gemini_response call api_key pp
        = "ERROR: Could not generate response from Gemini. Details: " ++ e := by
      simp [get_gemini_response, he]
    refine ⟨hv, " Could not generate response from Gemini. Details: " ++ e, ?_⟩
    rw [hv, ← String.append_assoc]
    rfl
  · intro t ht
    simp [get_gemini_response, ht]
  · intro hne
    simp [run_handler, hne]

/-- Claim C5, witness: a failing model call at a concrete input yields
the prefixed error string, and the handler displays the model client
return value for a successful concrete run. -/
theorem claim5_witness :
    failCall "key" [] = Except.error "quota exceeded" ∧
    get_gemini_response failCall "key" [] =
      "ERROR: Could not generate response from Gemini. Details: " ++ "quota exceeded" ∧
    (process_files sampleEnv [fileA]).1 ≠ [] ∧
    (run_handler sampleEnv okCall "key" "p" [fileA]).response_displayed =
      some (get_gemini_response okCall "key"
        (PromptPart.str "p" :: (process_files sampleEnv [fileA]).1)) :=
  ⟨rfl,
    ((claim5_model_client failCall "key" [] sampleEnv "p" []).1 "quota exceeded" rfl).1,
    by decide,
    (claim5_model_client okCall "key" [] sampleEnv "p" [fileA]).2.2 (by decide)⟩

/-- The file loop distributes over list append: processing two runs of
files in sequence concatenates their prompt parts and their
warnings. -/
theorem process_files_append (env : Behaviour) (xs ys : List FileRecord) :
    process_files env (xs ++ ys) =
      ((process_files env xs).1 ++ (process_files env ys).1,
       (process_files env xs).2 ++ (process_files env ys).2) := by
  induction xs with
  | nil => simp [process_files]
  | cons x rest ih =>
    simp [process_files, ih, List.append_assoc]

/-- Claim C6.  A file whose extraction is the unsupported variant
contributes nothing to the prompt parts, emits exactly the warning of
line 153, and the files before and after it are processed unchanged
and in order, one at a time. -/
theorem claim6_skip_and_continue (env : Behaviour) (pre post : List FileRecord)
    (f : FileRecord) (r : String)
    (h : get_file_content env f = .unsupported r) :
    process_files env (pre ++ f :: post) =
      ((process_files env pre).1 ++ (process_files env post).1,
       (process_files env pre).2 ++
         ("Skipping unsupported file: " ++ f.name ++ " (" ++ r ++ ")") ::
           (process_files env post).2) := by
  rw [process_files_append]
  simp [process_files, process_one, h]

/-- Claim C6, witness: an unsupported file between two good files at
concrete inputs. -/
theorem claim6_witness :
    get_file_content sampleEnv fileZip = .unsupported "Unsupported MIME type: application/zip" ∧
    process_files sampleEnv ([fileA] ++ fileZip :: [fileB]) =
      ((process_files sampleEnv [fileA]).1 ++ (process_files sampleEnv [fileB]).1,
       (process_files sampleEnv [fileA]).2 ++
         ("Skipping unsupported file: " ++ fileZip.name ++ " ("
            ++ "Unsupported MIME type: application/zip" ++ ")") ::
           (process_files sampleEnv [fileB]).2) :=
  ⟨by decide,
    claim6_skip_and_continue sampleEnv [fileA] [fileB] fileZip
      "Unsupported MIME type: application/zip" (by decide)⟩

/-- When every selected file extracts to the unsupported variant, the
file loop contributes no prompt parts at all. -/
theorem parts_nil_of_all_unsupported (env : Behaviour) (files : List FileRecord)
    (h : ∀ f ∈ files, ∃ r, get_file_content env f = .unsupported r) :
    (process_files env files).1 = [] := by
  induction files with
  | nil => rfl
  | cons f rest ih =>
    obtain ⟨r, hr⟩ := h f (List.mem_cons_self f rest)
    have hrest := ih (fun g hg => h g (List.mem_cons_of_mem f hg))
    simp [process_files, process_one, hr, hrest]

/-- Claim C9.  When every selected file extracts to the unsupported
variant, the handler displays no response, and its whole output does
not depend on the model call behaviour at all: the model is never
consulted and the user prompt is never sent on its own. -/
theorem claim9_no_model_call (env : Behaviour)
    (call call2 : String → List PromptPart → Except String String)
    (api_key user_prompt : String) (files : List FileRecord)
    (h : ∀ f ∈ files, ∃ r, get_file_content env f = .unsupported r) :
    (run_handler env call api_key user_prompt files).response_displayed = none ∧
    run_handler env call api_key user_prompt files =
      run_handler env call2 api_key user_prompt files := by
  have hnil := parts_nil_of_all_unsupported env files h
  constructor
  · simp [run_handler, hnil]
  · simp [run_handler, hnil]

/-- Claim C9, witness: with two files that both fail extraction, the
handler output is response-free and identical under a succeeding and a
failing model call behaviour. -/
theorem claim9_witness :
    get_file_content sampleEnv fileZip = .unsupported "Unsupported MIME type: application/zip" ∧
    get_file_content sampleEnv fileMissing = .unsupported "Error reading file: 404" ∧
    (run_handler sampleEnv okCall "key" "p" [fileZip, fileMissing]).response_displayed = none ∧
    run_handler sampleEnv okCall "key" "p" [fileZip, fileMissing] =
      run_handler sampleEnv failCall "key" "p" [fileZip, fileMissing] :=
  ⟨by decide, by decide,
    (claim9_no_model_call sampleEnv okCall failCall "key" "p" [fileZip, fileMissing]
      (by
        intro g hg
        simp only [List.mem_cons, List.not_mem_nil, or_false] at hg
        rcases hg with hg | hg
        · exact ⟨"Unsupported MIME type: application/zip", by rw [hg]; decide⟩
        · exact ⟨"Error reading file: 404", by rw [hg]; decide⟩)).1,
    (claim9_no_model_call sampleEnv okCall failCall "key" "p" [fileZip, fileMissing]
      (by
        intro g hg
        simp only [List.mem_cons, List.not_mem_nil, or_false] at hg
        rcases hg with hg | hg
        · exact ⟨"Unsupported MIME type: application/zip", by rw [hg]; decide⟩
        · exact ⟨"Error reading file: 404", by rw [hg]; decide⟩)).2⟩

/-! Helper lemmas about the name-keyed dict built by file_options. -/

theorem lookupName_dictInsert (m : List (String × FileRecord)) (k : String)
    (v : FileRecord) (n : String) :
    lookupName (dictInsert m k v) n = if n = k then some v else lookupName m n := by
  induction m with
  | nil =>
    by_cases h : n = k
    · subst h
      simp [dictInsert, lookupName]
    · have hkn : ¬ k = n := fun hk => h hk.symm
      simp [dictInsert, lookupName, h, hkn]
  | cons p rest ih =>
    by_cases hpk : p.1 = k
    · simp only [dictInsert, if_pos hpk]
      by_cases hnk : n = k
      · subst hnk
        simp [lookupName]
      · have hkn : ¬ k = n := fun hk => hnk hk.symm
        have hpn : ¬ p.1 = n := by rw [hpk]; exact hkn
        simp [lookupName, hkn, hpn, hnk]
    · simp only [dictInsert, if_neg hpk]
      by_cases hpn : p.1 = n
      · have hnk : ¬ n = k := fun hk => hpk (hpn.trans hk)
        simp [lookupName, hpn, hnk]
      · simp [lookupName, hpn, ih]

theorem filter_dictInsert_ne (m : List (String × FileRecord)) (k : String)
    (v : FileRecord) (n : String) (h : n ≠ k) :
    (dictInsert m k v).filter (fun p => p.1 = n) = m.filter (fun p => p.1 = n) := by
  have hkn : ¬ k = n := fun hk => h hk.symm
  induction m with
  | nil =>
    simp [dictInsert, hkn]
  | cons p rest ih =>
    simp only [dictInsert]
    by_cases hpk : p.1 = k
    · rw [if_pos hpk]
      have hpn : ¬ p.1 = n := by rw [hpk]; exact hkn
      simp [List.filter_cons, hpn, hkn]
    · rw [if_neg hpk]
      simp [List.filter_cons, ih]

theorem filter_dictInsert_eq (m : List (String × FileRecord)) (k : String)
    (v : FileRecord)
    (hm : (m.filter (fun p => p.1 = k)).length ≤ 1) :
    (dictInsert m k v).filter (fun p => p.1 = k) = [(k, v)] := by
  induction m with
  | nil => simp [dictInsert]
  | cons p rest ih =>
    by_cases hpk : p.1 = k
    · rw [List.filter_cons, if_pos (by simp [hpk])] at hm
      have hrest2 : rest.filter (fun p => decide (p.1 = k)) = [] := by
        rw [List.length_cons] at hm
        exact List.length_eq_zero.mp (by omega)
      simp only [dictInsert, if_pos hpk]
      simp [List.filter_cons, hrest2]
    · rw [List.filter_cons, if_neg (by simp [hpk])] at hm
      simp only [dictInsert, if_neg hpk]
      rw [List.filter_cons, if_neg (by simp [hpk]), ih hm]

theorem lastWithName_append (l : List FileRecord) (x : FileRecord) (n : String) :
    lastWithName (l ++ [x]) n = if x.name = n then some x else lastWithName l n := by
  induction l with
  | nil => simp [lastWithName]
  | cons y rest ih =>
    have hstep : lastWithName ((y :: rest) ++ [x]) n
        = match lastWithName (rest ++ [x]) n with
          | some r => some r
          | none => if y.name = n then some y else none := rfl
    rw [hstep, ih]
    by_cases h : x.name = n
    · simp [h]
    · simp [h, lastWithName]

/-- Claim C10.  The name-keyed map built from a listing resolves every
name to the last listed record carrying that name, and holds at most
one entry per name, so at most one file per distinct name is
selectable and analyzable, whatever the ids are. -/
theorem claim10_last_name_wins (items : List FileRecord) :
    ∀ n, lookupName (file_options items) n = lastWithName items n ∧
      ((file_options items).filter (fun p => p.1 = n)).length ≤ 1 := by
  induction items using List.reverseRecOn with
  | nil =>
    intro n
    exact ⟨rfl, by simp [file_options]⟩
  | append_singleton l x ih =>
    intro n
    have hfo : file_options (l ++ [x]) = dictInsert (file_options l) x.name x := by
      simp [file_options, List.foldl_append]
    constructor
    · rw [hfo, lookupName_dictInsert, lastWithName_append]
      by_cases h : n = x.name
      · subst h
        simp
      · rw [if_neg h, if_neg (fun hx => h (Eq.symm hx)), (ih n).1]
    · rw [hfo]
      by_cases h : n = x.name
      · subst h
        rw [filter_dictInsert_eq (file_options l) x.name x (ih x.name).2]
        simp
      · rw [filter_dictInsert_ne (file_options l) x.name x n h]
        exact (ih n).2

end DriveApp
